import Mathlib

/-!
Verification of the Audio-Player song library core: a shallow embedding of
the song ingestion pipeline (`handleAddSong`, `formatSongToStorage`), the
cover-image cache refresh, the smart-playlist filter (`filterSongs`) and the
playback selector (`playSong`), together with theorems settling the spec
claims about them.
-/

namespace AudioPlayer

/-! ## JavaScript string primitives used by the source -/

/-- JS falsiness of a possibly-absent string: `undefined`/`null` and the
empty string are falsy (`!attribute`, `!song.metaData.title`). -/
def jsFalsyOpt : Option String → Bool
  | none => true
  | some s => s == ""

/-- Substring test on character lists: `needle` occurs contiguously in the
second argument. Models JS `String.prototype.includes`. -/
def jsIncludesList (needle : List Char) : List Char → Bool
  | [] => needle.isEmpty
  | c :: rest => needle.isPrefixOf (c :: rest) || jsIncludesList needle rest

/-- JS `hay.includes(needle)`. -/
def jsIncludes (hay needle : String) : Bool :=
  jsIncludesList needle.data hay.data

/-- JS `s.replaceAll('\u0000', '')`: drop every NUL character. -/
def stripNull (s : String) : String :=
  ⟨s.data.filter (fun c => !(c == Char.ofNat 0))⟩

/-- JS `s.split('.')[0]`: the longest prefix of `s` containing no `'.'`. -/
def jsSplitFirst (s : String) : String :=
  ⟨s.data.takeWhile (fun c => !(c == '.'))⟩

/-- The spec's words, not the source: "the filename with its extension
removed", i.e. everything before the final dot (the whole name when it has
no dot). Used only to compare the code's behaviour against the spec. -/
def specFilenameStem (s : String) : String :=
  if s.data.any (fun c => c == '.') then
    ⟨((s.data.reverse.dropWhile (fun c => !(c == '.'))).drop 1).reverse⟩
  else s

/-! ## Data model (src/db.ts and App.tsx) -/

/-- Embedded cover image payload: bytes plus declared mime type. -/
structure CoverBlob where
  data : List Nat
  mime : String
deriving DecidableEq, Repr

/-- The persisted `Song` record of `db.ts`. The audio blob is a byte list. -/
structure Song where
  id : String
  blob : List Nat
  lastEditedUtc : Int
  title : String
  artist : Option String
  album : Option String
  genre : Option String
  year : Option String
  cover : Option CoverBlob
deriving DecidableEq, Repr

/-- `Comparison` enum of App.tsx. -/
inductive Comparison where
  | is
  | isNot
  | includes
  | doesNotInclude
deriving DecidableEq, Repr

/-- `Attribute` enum of App.tsx. -/
inductive Attribute where
  | Title
  | Artist
  | Album
  | Genre
deriving DecidableEq, Repr

/-- A smart-playlist rule. The source names the first field `attribute`,
which is a Lean keyword, so it is called `attr` here. -/
structure Rule where
  attr : Attribute
  comparison : Comparison
  data : String
deriving DecidableEq, Repr

/-- A smart playlist ("album"). -/
structure Album where
  name : String
  followAllRules : Bool
  rules : List Rule
deriving DecidableEq, Repr

/-! ## Smart playlist filter (`filterSongs`, App.tsx lines 311-342) -/

/-- `song[rule.attribute.toLowerCase()]`: dynamic field lookup. `title` is
always present (a plain string); the other fields are optional. -/
def attrVal (song : Song) : Attribute → Option String
  | .Title => some song.title
  | .Artist => song.artist
  | .Album => song.album
  | .Genre => song.genre

/-- The OR-mode positive condition of the `filterSongs` loop body.
`value` is the song's attribute value for the rule. -/
def posMatch (rule : Rule) (value : String) : Bool :=
  (rule.comparison == Comparison.is && value == rule.data) ||
  (rule.comparison == Comparison.isNot && !(value == rule.data)) ||
  (rule.comparison == Comparison.includes && jsIncludes value rule.data) ||
  (rule.comparison == Comparison.doesNotInclude && !(jsIncludes value rule.data))

/-- The AND-mode exclusion condition of the `filterSongs` loop body. -/
def negMatch (rule : Rule) (value : String) : Bool :=
  (rule.comparison == Comparison.is && !(value == rule.data)) ||
  (rule.comparison == Comparison.isNot && value == rule.data) ||
  (rule.comparison == Comparison.includes && !(jsIncludes value rule.data)) ||
  (rule.comparison == Comparison.doesNotInclude && jsIncludes value rule.data)

/-- The per-song rule loop of `filterSongs`: walk the rules in order;
a falsy attribute returns `false` at once; in OR mode a satisfied
comparison returns `true`; in AND mode a violated comparison returns
`false`; falling off the end returns `followAllRules`. -/
def evalRules (followAllRules : Bool) (song : Song) : List Rule → Bool
  | [] => followAllRules
  | rule :: rest =>
    match attrVal song rule.attr with
    | none => false
    | some value =>
      if value == "" then false
      else if !followAllRules && posMatch rule value then true
      else if followAllRules && negMatch rule value then false
      else evalRules followAllRules song rest

/-- `filterSongs({rules, followAllRules})`: keep the songs passing the loop. -/
def filterSongs (album : Album) (allSongs : List Song) : List Song :=
  allSongs.filter (fun song => evalRules album.followAllRules song album.rules)

/-- Normalised attribute view: a falsy value (absent field or empty string)
collapses to `none`. `evalRules` only observes songs through this view. -/
def normAttr (song : Song) (a : Attribute) : Option String :=
  match attrVal song a with
  | none => none
  | some v => if v == "" then none else some v

/-! ## Ingestion pipeline (`formatSongToStorage`, `handleAddSong`) -/

/-- Image field of the parsed ID3 tag data. -/
structure TagImage where
  data : List Nat
  mime : String
deriving DecidableEq, Repr

/-- The `ITags` metadata record returned by the ID3 parser; all string
fields may be absent, and the empty string is possible and falsy. -/
structure ITags where
  title : Option String
  artist : Option String
  album : Option String
  genre : Option String
  year : Option String
  image : Option TagImage
deriving DecidableEq, Repr

/-- A picked document descriptor (`google.picker.DocumentObject` fields
the pipeline reads). -/
structure DocumentObject where
  id : String
  name : String
  lastEditedUtc : Int
deriving DecidableEq, Repr

/-- A file candidate as it stands after the fetch step: the document, its
downloaded bytes, and the parse result (`none` models the parser returning
no structured result, which `handleAddSong` turns into a thrown error). -/
structure Candidate where
  doc : DocumentObject
  blob : List Nat
  metaData : Option ITags
deriving DecidableEq, Repr

/-- The title chosen by `formatSongToStorage` before NUL stripping:
`if (!song.metaData.title) song.metaData.title = song.name.split('.')[0]`. -/
def effectiveTitle (doc : DocumentObject) (meta : ITags) : String :=
  if jsFalsyOpt meta.title then jsSplitFirst doc.name else meta.title.getD ""

/-- `formatSongToStorage`: derive the stored `Song` record from the picked
document, its bytes and its parsed tags. -/
def formatSongToStorage (doc : DocumentObject) (blob : List Nat) (meta : ITags) : Song where
  id := doc.id
  blob := blob
  title := stripNull (effectiveTitle doc meta)
  lastEditedUtc := doc.lastEditedUtc
  artist := meta.artist.map stripNull
  album := meta.album.map stripNull
  genre := meta.genre.map stripNull
  year := meta.year.map stripNull
  cover := meta.image.map fun im => ⟨im.data, im.mime⟩

/-- The `songs` table, in insertion order. The Dexie schema `'&id, ...'`
makes `id` the unique primary key. -/
abbrev SongStore := List Song

/-- `db.songs.get(id)`: primary-key lookup. -/
def getSong (store : SongStore) (id : String) : Option Song :=
  store.find? (fun s => s.id == id)

/-- `handleAddSong`: look up a duplicate by id; if one exists with
`lastEditedUtc >=` the candidate's, do nothing; otherwise fetch and parse
(a parse failure throws), then `update` the existing record in full or
`add` a new one. -/
def handleAddSong (store : SongStore) (c : Candidate) : Except String SongStore :=
  match getSong store c.doc.id with
  | some duplicate =>
    if c.doc.lastEditedUtc ≤ duplicate.lastEditedUtc then .ok store
    else
      match c.metaData with
      | none => .error "Invalid metadata"
      | some meta =>
        .ok (store.map fun s =>
          if s.id == c.doc.id then formatSongToStorage c.doc c.blob meta else s)
  | none =>
    match c.metaData with
    | none => .error "Invalid metadata"
    | some meta => .ok (store ++ [formatSongToStorage c.doc c.blob meta])

/-- The store after one `handleAddSong` call: a thrown error leaves the
database untouched (the throw happens before any `update`/`add`). -/
def ingestStep (store : SongStore) (c : Candidate) : SongStore :=
  match handleAddSong store c with
  | .ok store' => store'
  | .error _ => store

/-- The store after ingesting a sequence of file candidates. -/
def ingestAll (store : SongStore) (cs : List Candidate) : SongStore :=
  cs.foldl ingestStep store

/-- The primary-key invariant: at most one record per `id`. -/
def uniqueIds (store : SongStore) : Prop :=
  (store.map Song.id).Nodup

/-! ## Cover image cache (the `songToCover` refresh effect, lines 128-152) -/

/-- A cache entry: the object-URL display handle (numbered) and the
owning song's `lastEditedUtc` at creation time. -/
structure CoverEntry where
  cover : Nat
  lastUpdatedUtc : Int
deriving DecidableEq, Repr

/-- A JS object used as a map, as an insertion-ordered association list. -/
abbrev CoverMap := List (String × CoverEntry)

/-- `m[k]` on a JS object map. -/
def mapGet (m : CoverMap) (k : String) : Option CoverEntry :=
  (m.find? (fun p => p.1 == k)).map (·.2)

/-- `delete m[k]` on a JS object map. -/
def mapDelete (m : CoverMap) (k : String) : CoverMap :=
  m.filter (fun p => !(p.1 == k))

/-- `m[k] = v` on a JS object map: overwrite in place, else append. -/
def mapSet (m : CoverMap) (k : String) (v : CoverEntry) : CoverMap :=
  if (m.find? (fun p => p.1 == k)).isSome
  then m.map (fun p => if p.1 == k then (k, v) else p)
  else m ++ [(k, v)]

/-- State threaded through the first refresh loop: the directly mutated
previous map (`songToCover`), the copy being built (`newSongToCover`),
the handles created so far, and the object-URL counter. -/
structure RefreshState where
  oldMap : CoverMap
  newMap : CoverMap
  created : List Nat
  nextHandle : Nat
deriving DecidableEq, Repr

/-- Body of `allSongs?.forEach` in the refresh effect: a stale entry is
deleted from the previous map (without revoking); a song with cover bytes
and no surviving entry gets a fresh handle in the new map. -/
def refreshLoop1 (st : RefreshState) (song : Song) : RefreshState :=
  let st :=
    match mapGet st.oldMap song.id with
    | some entry =>
      if entry.lastUpdatedUtc < song.lastEditedUtc
      then { st with oldMap := mapDelete st.oldMap song.id }
      else st
    | none => st
  if (mapGet st.oldMap song.id).isNone && song.cover.isSome then
    { st with
      newMap := mapSet st.newMap song.id ⟨st.nextHandle, song.lastEditedUtc⟩
      created := st.created ++ [st.nextHandle]
      nextHandle := st.nextHandle + 1 }
  else st

/-- Result of one refresh: the next `songToCover` value, the handles
created, the handles revoked, and the advanced handle counter. -/
structure RefreshResult where
  newMap : CoverMap
  created : List Nat
  revoked : List Nat
  nextHandle : Nat
deriving DecidableEq, Repr

/-- The whole `useEffect` refresh over `allSongs`: copy the map, run the
per-song loop, then revoke and drop every entry whose key is no longer in
the live song collection (`Object.keys(songToCover).forEach`). -/
def refreshCovers (allSongs : List Song) (songToCover : CoverMap) (nextHandle : Nat) :
    RefreshResult :=
  let st1 := allSongs.foldl refreshLoop1 ⟨songToCover, songToCover, [], nextHandle⟩
  let cleaned := st1.oldMap.foldl
    (fun (acc : CoverMap × List Nat) p =>
      if !(allSongs.any (fun s => s.id == p.1))
      then (mapDelete acc.1 p.1, acc.2 ++ [p.2.cover])
      else acc)
    (st1.newMap, [])
  ⟨cleaned.1, st1.created, cleaned.2, st1.nextHandle⟩

/-! ## Playback selector (`playSong`, lines 344-369) -/

/-- The error notice emitted when the active scope matches no songs. -/
def noSongsMsg : String := "There are currently no songs to play"

/-- Transient playback state: the loaded song, the object-URL handle held
by the audio element (`none` models the initial empty `audio.src`), the
play flag, and bookkeeping of created/revoked handles and emitted notices. -/
structure PlayerState where
  currentSong : Option Song
  audioSrc : Option Nat
  playing : Bool
  created : List Nat
  revoked : List Nat
  nextHandle : Nat
  notices : List String
deriving DecidableEq, Repr

/-- The random re-pick loop of `playSong`: draw indices from `rolls` until
the drawn song's id differs from the current one or only one candidate
exists. `none` models an out-of-range draw or the loop still running when
the supplied draws are exhausted. -/
def reroll (currentId : Option String) (filtered : List Song) : List Nat → Option Song
  | [] => none
  | r :: rs =>
    match filtered.get? r with
    | none => none
    | some s =>
      if currentId == some s.id && decide (1 < filtered.length)
      then reroll currentId filtered rs
      else some s

/-- `playSong(song?)` over an already-computed matching set: revoke the
audio element's current object URL, bail out with a notice if the set is
empty, otherwise take the explicit song or re-roll a random one, then load
it into a fresh handle and start playing. -/
def playSong (st : PlayerState) (songArg : Option Song) (filtered : List Song)
    (rolls : List Nat) : Option PlayerState :=
  let st1 := { st with revoked := st.revoked ++ st.audioSrc.toList }
  if filtered.length = 0 then
    some { st1 with notices := st1.notices ++ [noSongsMsg] }
  else
    let chosen :=
      match songArg with
      | some s => some s
      | none => reroll (st.currentSong.map Song.id) filtered rolls
    match chosen with
    | none => none
    | some song =>
      some { st1 with
        currentSong := some song
        audioSrc := some st1.nextHandle
        created := st1.created ++ [st1.nextHandle]
        nextHandle := st1.nextHandle + 1
        playing := true }

/-- The album the player filters by:
`albums.find(a => a.name === currentAlbum) || {followAllRules: true, rules: [], name: ''}`. -/
def activeScope (albums : List Album) (currentAlbum : String) : Album :=
  (albums.find? (fun a => a.name == currentAlbum)).getD
    { name := "", followAllRules := true, rules := [] }

/-- `playSong` as called in the app: the matching set is computed by
`filterSongs` over the active scope. -/
def playSongTop (st : PlayerState) (songArg : Option Song) (albums : List Album)
    (currentAlbum : String) (allSongs : List Song) (rolls : List Nat) :
    Option PlayerState :=
  playSong st songArg (filterSongs (activeScope albums currentAlbum) allSongs) rolls

/-! ## Picker batch / folder recursion (`handlePickerChange`, `handleAddFolder`) -/

/-- A picked document as the ingestion sees it: a file, or a folder whose
Drive listing yields the given children. -/
inductive PickedDoc where
  | file (id name : String) (lastEditedUtc : Int)
  | folder (id : String) (children : List PickedDoc)
deriving Repr

mutual

/-- The file ids whose `handleAddSong` completion `handleAddFolder` awaits:
its `await Promise.all` awaits every child file and recursive subfolder. -/
def folderAwaitedFiles : PickedDoc → List String
  | .file id _ _ => [id]
  | .folder _ children => folderListAwaitedFiles children

/-- Awaited file ids across a list of children. -/
def folderListAwaitedFiles : List PickedDoc → List String
  | [] => []
  | d :: ds => folderAwaitedFiles d ++ folderListAwaitedFiles ds

end

/-- The file ids whose completion `handlePickerChange` awaits before it
notifies success: top-level files are awaited (`await handleAddSong`), but
`handleAddFolder(songOrFolder)` is invoked without `await`, so a top-level
folder contributes nothing. -/
def pickerAwaitedFiles : List PickedDoc → List String
  | [] => []
  | d :: ds =>
    (match d with
     | .file id _ _ => [id]
     | .folder _ _ => []) ++ pickerAwaitedFiles ds

/-- Every file id whose ingestion the picker batch spawns, including the
whole subtree of each picked folder. -/
def pickerSpawnedFiles (docs : List PickedDoc) : List String :=
  folderListAwaitedFiles docs

/-! ## Concrete instances used by counterexamples and witnesses -/

/-- A song with title `"x"` and no artist/album/genre tags. -/
def songX : Song :=
  { id := "x1", blob := [], lastEditedUtc := 0, title := "x",
    artist := none, album := none, genre := none, year := none, cover := none }

/-- `songX` with the genre present but equal to the empty string. -/
def songXe : Song := { songX with genre := some "" }

/-- An OR-mode album whose first rule matches `songX` and whose second rule
reads the absent `genre` attribute. -/
def albumOr : Album :=
  { name := "A", followAllRules := false,
    rules := [⟨Attribute.Title, Comparison.is, "x"⟩,
              ⟨Attribute.Genre, Comparison.is, "y"⟩] }

/-- A genre rule with a negative comparison. -/
def ruleGenreIsNot : Rule := ⟨Attribute.Genre, Comparison.isNot, "y"⟩

/-- A title rule that does not match `songX`. -/
def ruleTitleIsZ : Rule := ⟨Attribute.Title, Comparison.is, "z"⟩

/-- A genre rule (used where a missing attribute is wanted). -/
def ruleGenreIsY : Rule := ⟨Attribute.Genre, Comparison.is, "y"⟩

/-- A song with id `"a"`. -/
def songA : Song :=
  { id := "a", blob := [0], lastEditedUtc := 100, title := "Alpha",
    artist := none, album := none, genre := none, year := none, cover := none }

/-- A song with id `"b"`. -/
def songB : Song :=
  { id := "b", blob := [1], lastEditedUtc := 100, title := "Beta",
    artist := none, album := none, genre := none, year := none, cover := none }

/-- The song with id `"a"` after an update: newer timestamp, cover bytes. -/
def songA200 : Song :=
  { id := "a", blob := [2], lastEditedUtc := 200, title := "Alpha",
    artist := none, album := none, genre := none, year := none,
    cover := some ⟨[7], "image/png"⟩ }

/-- Parsed tag data with every field absent. -/
def metaNoTitle : ITags :=
  { title := none, artist := none, album := none, genre := none,
    year := none, image := none }

/-- Parsed tag data with a title and an embedded image. -/
def metaFull : ITags :=
  { title := some "New Title", artist := some "Artist", album := some "Album",
    genre := some "Rock", year := some "2020", image := some ⟨[9], "image/jpeg"⟩ }

/-- A picked document named with two dots. -/
def docAB : DocumentObject := { id := "d1", name := "a.b.mp3", lastEditedUtc := 10 }

/-- The spec's example document. -/
def docTrack : DocumentObject := { id := "d2", name := "track07.mp3", lastEditedUtc := 10 }

/-- A picked document whose name starts with the extension dot. -/
def docDot : DocumentObject := { id := "d3", name := ".mp3", lastEditedUtc := 10 }

/-- A candidate for the already-stored id `"a"` with an older timestamp. -/
def candOld : Candidate :=
  { doc := { id := "a", name := "alpha.mp3", lastEditedUtc := 50 }, blob := [3],
    metaData := some metaFull }

/-- A candidate for the already-stored id `"a"` with a newer timestamp. -/
def candNew : Candidate :=
  { doc := { id := "a", name := "alpha.mp3", lastEditedUtc := 150 }, blob := [4],
    metaData := some metaFull }

/-- A candidate for a fresh id `"c"`. -/
def candC : Candidate :=
  { doc := { id := "c", name := "gamma.mp3", lastEditedUtc := 60 }, blob := [5],
    metaData := some metaFull }

/-- A player currently playing `songA` through object URL `0`. -/
def statePlayingA : PlayerState :=
  { currentSong := some songA, audioSrc := some 0, playing := true,
    created := [0], revoked := [], nextHandle := 1, notices := [] }

/-- A picked folder containing a single audio file. -/
def pickedFolderF : PickedDoc :=
  .folder "f" [.file "c" "song.mp3" 100]

/-! ## Theorems settling the claims -/

/-- C4: an album with an empty rule list matches every song when
`followAllRules` is true (AND mode) and no song when it is false (OR
mode): the rule loop never runs and `filterSongs` returns
`followAllRules` for each song. -/
theorem emptyRules_matching (name : String) (songs : List Song) :
    filterSongs { name := name, followAllRules := true, rules := [] } songs = songs ∧
    filterSongs { name := name, followAllRules := false, rules := [] } songs = [] := by
  refine ⟨?_, ?_⟩ <;> simp [filterSongs, evalRules]

/-- C9 (code bug): `handlePickerChange` invokes `handleAddFolder` without
awaiting it, so a picked folder contributes nothing to the set of file
ingestions the batch awaits before notifying, even though
`handleAddFolder` itself would await its whole subtree: the call can
complete (and notify success) before the folder's spawned work settles. -/
theorem picker_folder_not_awaited :
    pickerAwaitedFiles [pickedFolderF] = [] ∧
    pickerSpawnedFiles [pickedFolderF] = ["c"] ∧
    folderAwaitedFiles pickedFolderF = ["c"] :=
  ⟨rfl, rfl, rfl⟩

/-- C2 (code bug): refreshing the cover cache over a song whose
`lastEditedUtc` (200) has advanced past its cache entry's recorded
timestamp (100) creates a fresh handle `1` that replaces handle `0` as
current, but revokes nothing: the stale branch deletes the entry from the
previous map without calling `URL.revokeObjectURL`, so handle `0` leaks
(released zero times, not exactly once). -/
theorem coverRefresh_stale_leak :
    (refreshCovers [songA200] [("a", ⟨0, 100⟩)] 1).created = [1] ∧
    (refreshCovers [songA200] [("a", ⟨0, 100⟩)] 1).revoked = [] ∧
    mapGet (refreshCovers [songA200] [("a", ⟨0, 100⟩)] 1).newMap "a" = some ⟨1, 200⟩ := by
  decide

/-- C3 counterexample: `songX` lacks the genre attribute referenced by the
second rule of OR-mode `albumOr`, yet the filter accepts it, because the
first rule matches and returns before the missing attribute is reached —
refuting "rejects the song regardless of mode". -/
theorem missingAttribute_or_counterexample :
    jsFalsyOpt (attrVal songX Attribute.Genre) = true ∧
    ruleGenreIsY ∈ albumOr.rules ∧
    ruleGenreIsY.attr = Attribute.Genre ∧
    filterSongs albumOr [songX] = [songX] := by
  decide

/-- C5 counterexample: calling next-track selection with an empty matching
scope on a player holding object URL `0` revokes that handle (the
`URL.revokeObjectURL(audio.src)` at the top of `playSong` runs before the
emptiness check), so the playback state is not left unchanged. -/
theorem playSong_emptyScope_counterexample :
    (playSongTop statePlayingA none [] "" [] []).map PlayerState.revoked = some [0] ∧
    statePlayingA.revoked = [] := by
  decide

/-- C7 counterexample: a file named `"a.b.mp3"` with no tag title is
stored with title `"a"` (everything before the first dot), not `"a.b"`
(the filename with its extension removed), refuting the claim. -/
theorem titleFallback_counterexample :
    (formatSongToStorage docAB [] metaNoTitle).title = "a" ∧
    specFilenameStem docAB.name = "a.b" ∧
    ("a" : String) ≠ "a.b" := by
  decide

/-- C8 counterexample: a file named `".mp3"` whose tag metadata lacks a
title is stored with the empty title, refuting the non-emptiness
invariant. -/
theorem titleNonempty_counterexample :
    (formatSongToStorage docDot [] metaNoTitle).title = "" := by
  decide

/-- C5 (amended): when the active scope's matching set is empty,
next-track selection emits the "no songs to play" notice and leaves the
loaded song, the play/pause status, the assigned `audio.src` handle and
the handle counter unchanged — but the object URL held at entry has
already been revoked, because the revocation precedes the emptiness
check. -/
theorem playSong_emptyScope_amended (st : PlayerState) (songArg : Option Song)
    (albums : List Album) (currentAlbum : String) (allSongs : List Song)
    (rolls : List Nat)
    (h : filterSongs (activeScope albums currentAlbum) allSongs = []) :
    playSongTop st songArg albums currentAlbum allSongs rolls =
      some { st with revoked := st.revoked ++ st.audioSrc.toList,
                     notices := st.notices ++ [noSongsMsg] } := by
  unfold playSongTop
  rw [h]
  rfl

/-- Witness for C5 (amended) at a concrete playing state and empty store. -/
theorem playSong_emptyScope_amended_witness :
    filterSongs (activeScope [] "") [] = [] ∧
    playSongTop statePlayingA none [] "" [] [] =
      some { statePlayingA with revoked := [0], notices := [noSongsMsg] } :=
  ⟨rfl, playSong_emptyScope_amended statePlayingA none [] "" [] [] rfl⟩

/-- C7 (amended): when the extracted tag metadata lacks a title (absent or
empty), the stored title is the filename truncated at its FIRST dot
(`name.split('.')[0]`), NUL-stripped; for single-extension names such as
`"track07.mp3"` this coincides with the filename stem. -/
theorem titleFallback_amended (doc : DocumentObject) (blob : List Nat) (meta : ITags)
    (h : jsFalsyOpt meta.title = true) :
    (formatSongToStorage doc blob meta).title = stripNull (jsSplitFirst doc.name) := by
  simp [formatSongToStorage, effectiveTitle, h]

/-- Witness for C7 (amended): the spec's own example file name. -/
theorem titleFallback_amended_witness :
    jsFalsyOpt metaNoTitle.title = true ∧
    (formatSongToStorage docTrack [] metaNoTitle).title = stripNull (jsSplitFirst docTrack.name) ∧
    stripNull (jsSplitFirst docTrack.name) = "track07" :=
  ⟨by decide, titleFallback_amended docTrack [] metaNoTitle (by decide), by decide⟩

/-- C8 (amended): the stored title is non-empty provided the string the
code derives it from — the tag title when truthy, else the filename's
first dot-component — contains at least one non-NUL character. -/
theorem titleNonempty_amended (doc : DocumentObject) (blob : List Nat) (meta : ITags)
    (h : ∃ c ∈ (effectiveTitle doc meta).data, c ≠ Char.ofNat 0) :
    (formatSongToStorage doc blob meta).title ≠ "" := by
  obtain ⟨c, hc, hne⟩ := h
  intro heq
  have hdata : (formatSongToStorage doc blob meta).title.data = [] := by
    rw [heq]
  have hmem : c ∈ (formatSongToStorage doc blob meta).title.data := by
    show c ∈ ((effectiveTitle doc meta).data.filter fun ch => !(ch == Char.ofNat 0))
    refine List.mem_filter.mpr ⟨hc, ?_⟩
    simpa using hne
  rw [hdata] at hmem
  exact (List.not_mem_nil c) hmem

/-- Witness for C8 (amended) at the spec's example file name. -/
theorem titleNonempty_amended_witness :
    (∃ c ∈ (effectiveTitle docTrack metaNoTitle).data, c ≠ Char.ofNat 0) ∧
    (formatSongToStorage docTrack [] metaNoTitle).title ≠ "" :=
  ⟨by decide, titleNonempty_amended docTrack [] metaNoTitle (by decide)⟩

/-- One step of the rule loop, for rewriting. -/
theorem evalRules_cons (followAllRules : Bool) (song : Song) (rule : Rule)
    (rest : List Rule) :
    evalRules followAllRules song (rule :: rest) =
      match attrVal song rule.attr with
      | none => false
      | some value =>
        if value == "" then false
        else if !followAllRules && posMatch rule value then true
        else if followAllRules && negMatch rule value then false
        else evalRules followAllRules song rest := rfl

/-- C3 (amended): a rule whose referenced attribute is falsy on the song
rejects the song at the point the loop reaches it. Hence in AND mode any
such rule anywhere in the list rejects the song; in OR mode the song is
rejected provided no rule before it already matched (otherwise the loop
returns true first, as the counterexample shows). -/
theorem missingAttribute_rejects_amended :
    (∀ (song : Song) (rules : List Rule),
        (∃ r ∈ rules, jsFalsyOpt (attrVal song r.attr) = true) →
        evalRules true song rules = false) ∧
    (∀ (song : Song) (pre : List Rule) (r : Rule) (post : List Rule),
        jsFalsyOpt (attrVal song r.attr) = true →
        evalRules false song pre = false →
        evalRules false song (pre ++ r :: post) = false) := by
  constructor
  · intro song rules h
    induction rules with
    | nil => simp at h
    | cons rule rest ih =>
      obtain ⟨r, hr, hfalsy⟩ := h
      rw [evalRules_cons]
      cases hv : attrVal song rule.attr with
      | none => rfl
      | some v =>
        by_cases hve : (v == "") = true
        · simp [hve]
        · rcases List.mem_cons.mp hr with rfl | hmem
          · rw [hv] at hfalsy
            simp [jsFalsyOpt] at hfalsy
            exact absurd hfalsy (by simpa using hve)
          · by_cases hneg : negMatch rule v = true
            · simp [hve, hneg]
            · simp [hve, hneg]
              exact ih ⟨r, hmem, hfalsy⟩
  · intro song pre r post hfalsy
    induction pre with
    | nil =>
      intro _
      rw [List.nil_append, evalRules_cons]
      cases hv : attrVal song r.attr with
      | none => rfl
      | some v =>
        have hve : (v == "") = true := by
          rw [hv] at hfalsy
          simpa [jsFalsyOpt] using hfalsy
        simp [hve]
    | cons p ps ih =>
      intro hpre
      rw [List.cons_append, evalRules_cons]
      rw [evalRules_cons] at hpre
      cases hv : attrVal song p.attr with
      | none => rfl
      | some v =>
        rw [hv] at hpre
        by_cases hve : (v == "") = true
        · simp [hve]
        · by_cases hpos : posMatch p v = true
          · simp [hve, hpos] at hpre
          · simp only [hve, hpos] at hpre ⊢
            simp [hve, hpos] at hpre ⊢
            exact ih hpre

/-- Witness for C3 (amended): `songX` lacks a genre; an AND-mode list
containing the genre rule rejects it, and an OR-mode list whose earlier
rule does not match rejects it as well. -/
theorem missingAttribute_rejects_amended_witness :
    evalRules true songX [ruleGenreIsY] = false ∧
    evalRules false songX ([ruleTitleIsZ] ++ ruleGenreIsY :: []) = false :=
  ⟨missingAttribute_rejects_amended.1 songX [ruleGenreIsY]
      ⟨ruleGenreIsY, by decide, by decide⟩,
   missingAttribute_rejects_amended.2 songX [ruleTitleIsZ] ruleGenreIsY []
      (by decide) (by decide)⟩

/-- C10: a field holding the empty string is treated by the filter exactly
like a missing field: the loop observes songs only through the normalised
attribute view (first conjunct), and a rule whose referenced attribute is
falsy never evaluates its comparison — in particular a single `is not` or
`does not include` rule never matches such a song (second conjunct). -/
theorem emptyAttr_behaves_as_missing :
    (∀ s s' : Song, (∀ a : Attribute, normAttr s a = normAttr s' a) →
        ∀ (followAllRules : Bool) (rules : List Rule),
          evalRules followAllRules s rules = evalRules followAllRules s' rules) ∧
    (∀ (s : Song) (r : Rule) (followAllRules : Bool),
        jsFalsyOpt (attrVal s r.attr) = true →
        evalRules followAllRules s [r] = false) := by
  constructor
  · intro s s' h fa rules
    induction rules with
    | nil => rfl
    | cons rule rest ih =>
      have key := h rule.attr
      rw [evalRules_cons, evalRules_cons]
      cases hv : attrVal s rule.attr with
      | none =>
        cases hv' : attrVal s' rule.attr with
        | none => rfl
        | some v' =>
          simp only [normAttr, hv, hv'] at key
          by_cases hve' : (v' == "") = true
          · simp [hve']
          · rw [if_neg hve'] at key
            exact absurd key (by simp)
      | some v =>
        cases hv' : attrVal s' rule.attr with
        | none =>
          simp only [normAttr, hv, hv'] at key
          by_cases hve : (v == "") = true
          · simp [hve]
          · rw [if_neg hve] at key
            exact absurd key (by simp)
        | some v' =>
          simp only [normAttr, hv, hv'] at key
          by_cases hve : (v == "") = true
          · by_cases hve' : (v' == "") = true
            · simp [hve, hve']
            · rw [if_pos hve, if_neg hve'] at key
              exact absurd key (by simp)
          · by_cases hve' : (v' == "") = true
            · rw [if_neg hve, if_pos hve'] at key
              exact absurd key (by simp)
            · rw [if_neg hve, if_neg hve'] at key
              obtain rfl : v = v' := Option.some.inj key
              rw [ih]
  · intro s r fa hfalsy
    rw [show [r] = r :: [] from rfl, evalRules_cons]
    cases hv : attrVal s r.attr with
    | none => rfl
    | some v =>
      have hve : (v == "") = true := by
        rw [hv] at hfalsy
        simpa [jsFalsyOpt] using hfalsy
      simp [hve]

/-- Witness for C10: `songXe` (genre present but empty) filters exactly
like `songX` (genre absent), and a negative genre comparison does not
match it. -/
theorem emptyAttr_behaves_as_missing_witness :
    evalRules false songXe [ruleGenreIsNot] = evalRules false songX [ruleGenreIsNot] ∧
    evalRules false songXe [ruleGenreIsNot] = false :=
  ⟨emptyAttr_behaves_as_missing.1 songXe songX
      (by intro a; cases a <;> rfl) false [ruleGenreIsNot],
   emptyAttr_behaves_as_missing.2 songXe ruleGenreIsNot false (by decide)⟩

/-- The re-pick loop never yields a song with the current id when the
matching set has at least two elements. -/
theorem reroll_ne_current (c : String) (filtered : List Song) (rolls : List Nat)
    (s : Song) (h2 : 2 ≤ filtered.length)
    (h : reroll (some c) filtered rolls = some s) : s.id ≠ c := by
  induction rolls with
  | nil => simp [reroll] at h
  | cons r rs ih =>
    cases hg : filtered.get? r with
    | none =>
      simp only [reroll, hg] at h
      exact absurd h (by simp)
    | some s0 =>
      simp only [reroll, hg] at h
      by_cases hcond : (some c == some s0.id && decide (1 < filtered.length)) = true
      · rw [if_pos hcond] at h
        exact ih h
      · rw [if_neg hcond] at h
        obtain rfl : s0 = s := Option.some.inj h
        have hlen : decide (1 < filtered.length) = true := decide_eq_true (by omega)
        have hne : ¬ (some c == some s0.id) = true :=
          fun hbc => hcond (by rw [hbc, hlen]; rfl)
        intro heq
        exact hne (by rw [heq]; exact beq_self_eq_true (some c))

/-- On a one-element matching set the loop returns that song on the first
in-range draw, whatever the current song is. -/
theorem reroll_singleton (cur : Option String) (s : Song) (rolls : List Nat)
    (r : Nat) (hr : r < 1) : reroll cur [s] (r :: rolls) = some s := by
  obtain rfl : r = 0 := Nat.lt_one_iff.mp hr
  simp [reroll]

/-- `playSong` with no explicit song loads a song different from the
current one whenever the matching set has at least two songs. -/
theorem playSong_next_ne_current (st : PlayerState) (filtered : List Song)
    (rolls : List Nat) (st' : PlayerState) (c : Song)
    (h2 : 2 ≤ filtered.length) (hc : st.currentSong = some c)
    (hp : playSong st none filtered rolls = some st') :
    ∃ s, st'.currentSong = some s ∧ s.id ≠ c.id := by
  have hlen : ¬ (filtered.length = 0) := by omega
  simp only [playSong, hc, Option.map_some', hlen, if_false] at hp
  cases hre : reroll (some c.id) filtered rolls with
  | none =>
    rw [hre] at hp
    exact absurd hp (by simp)
  | some s =>
    rw [hre] at hp
    obtain rfl := Option.some.inj hp
    exact ⟨s, rfl, reroll_ne_current c.id filtered rolls s h2 hre⟩

/-- C6: whenever next-track selection (the random re-pick loop of
`playSong`) returns a song from a matching set of at least two, that
song's id differs from the currently loaded one — no immediate repeat —
and on a one-element matching set it returns that single song without
error, even if it equals the current song. -/
theorem noImmediateRepeat :
    (∀ (c : String) (filtered : List Song) (rolls : List Nat) (s : Song),
        2 ≤ filtered.length → reroll (some c) filtered rolls = some s →
        s.id ≠ c) ∧
    (∀ (cur : Option String) (s : Song) (rolls : List Nat) (r : Nat),
        r < 1 → reroll cur [s] (r :: rolls) = some s) ∧
    (∀ (st : PlayerState) (filtered : List Song) (rolls : List Nat)
        (st' : PlayerState) (c : Song),
        2 ≤ filtered.length → st.currentSong = some c →
        playSong st none filtered rolls = some st' →
        ∃ s, st'.currentSong = some s ∧ s.id ≠ c.id) :=
  ⟨reroll_ne_current, reroll_singleton, playSong_next_ne_current⟩

/-- Witness for C6 on a two-song and a one-song matching set. -/
theorem noImmediateRepeat_witness :
    reroll (some "a") [songA, songB] [0, 1] = some songB ∧
    songB.id ≠ "a" ∧
    reroll (some "a") [songA] [0] = some songA :=
  ⟨by decide,
   noImmediateRepeat.1 "a" [songA, songB] [0, 1] songB (by decide) (by decide),
   noImmediateRepeat.2.1 (some "a") songA [] 0 (by decide)⟩

/-- Primary-key lookup on a cons. -/
theorem getSong_cons (s : Song) (rest : SongStore) (id : String) :
    getSong (s :: rest) id =
      if (s.id == id) = true then some s else getSong rest id := by
  cases h : (s.id == id) with
  | true => simp [getSong, List.find?_cons_of_pos, h]
  | false =>
    rw [if_neg (by simp [h])]
    simp [getSong, List.find?_cons_of_neg, h]

/-- Replacing the record keyed `id` makes it the lookup result for `id`. -/
theorem getSong_update_self (store : SongStore) (id : String) (newRec : Song)
    (hid : newRec.id = id) (h : (getSong store id).isSome = true) :
    getSong (store.map fun s => if s.id == id then newRec else s) id = some newRec := by
  induction store with
  | nil => simp [getSong] at h
  | cons s rest ih =>
    cases hbe : (s.id == id) with
    | true =>
      have hnew : (newRec.id == id) = true := by
        rw [hid]; exact beq_self_eq_true id
      rw [List.map_cons, if_pos hbe, getSong_cons, if_pos hnew]
    | false =>
      have h' : (getSong rest id).isSome = true := by
        rw [getSong_cons, if_neg (by simp [hbe])] at h
        exact h
      rw [List.map_cons, if_neg (by simp [hbe]), getSong_cons,
        if_neg (by simp [hbe])]
      exact ih h'

/-- Replacing the record keyed `id` leaves lookups of other keys alone. -/
theorem getSong_update_other (store : SongStore) (id : String) (newRec : Song)
    (hid : newRec.id = id) (q : String) (hq : q ≠ id) :
    getSong (store.map fun s => if s.id == id then newRec else s) q =
      getSong store q := by
  induction store with
  | nil => rfl
  | cons s rest ih =>
    cases hbe : (s.id == id) with
    | true =>
      have hs : s.id = id := by simpa using hbe
      have hsq : (s.id == q) = false := by
        rw [hs]; exact beq_eq_false_iff_ne.mpr (fun hh => hq hh.symm)
      have hnq : (newRec.id == q) = false := by
        rw [hid]; exact beq_eq_false_iff_ne.mpr (fun hh => hq hh.symm)
      rw [List.map_cons, if_pos hbe, getSong_cons, if_neg (by simp [hnq]),
        getSong_cons, if_neg (by simp [hsq])]
      exact ih
    | false =>
      rw [List.map_cons, if_neg (by simp [hbe]), getSong_cons, getSong_cons]
      cases hsq : (s.id == q) with
      | true => rfl
      | false => exact ih

/-- Replacing the record keyed `id` by a record with the same id leaves
the id column unchanged. -/
theorem updateIds (store : SongStore) (id : String) (newRec : Song)
    (hid : newRec.id = id) :
    (store.map fun s => if s.id == id then newRec else s).map Song.id =
      store.map Song.id := by
  induction store with
  | nil => rfl
  | cons s rest ih =>
    cases hbe : (s.id == id) with
    | true =>
      have hs : s.id = id := by simpa using hbe
      simp only [List.map_cons]
      rw [if_pos hbe, ih, hid, hs]
    | false =>
      simp only [List.map_cons]
      rw [if_neg (by simp [hbe]), ih]

/-- A failed primary-key lookup means the id is not in the id column. -/
theorem getSong_none_not_mem (store : SongStore) (id : String)
    (h : getSong store id = none) : id ∉ store.map Song.id := by
  intro hmem
  obtain ⟨s, hs, hsid⟩ := List.mem_map.mp hmem
  have h' : ∀ x ∈ store, ¬ x.id = id := by
    simpa [getSong, List.find?_eq_none] using h
  exact h' s hs hsid

/-- One ingestion step preserves the at-most-one-record-per-id invariant. -/
theorem ingestStep_uniqueIds (store : SongStore) (c : Candidate)
    (h : uniqueIds store) : uniqueIds (ingestStep store c) := by
  cases hget : getSong store c.doc.id with
  | some dup =>
    by_cases hts : c.doc.lastEditedUtc ≤ dup.lastEditedUtc
    · have hok : handleAddSong store c = .ok store := by
        simp [handleAddSong, hget, hts]
      simpa [ingestStep, hok] using h
    · cases hmeta : c.metaData with
      | none =>
        have herr : handleAddSong store c = .error "Invalid metadata" := by
          simp [handleAddSong, hget, hts, hmeta]
        simpa [ingestStep, herr] using h
      | some meta =>
        have hok : handleAddSong store c = .ok (store.map fun s =>
            if s.id == c.doc.id then formatSongToStorage c.doc c.blob meta else s) := by
          simp [handleAddSong, hget, hts, hmeta]
        unfold ingestStep
        rw [hok]
        show uniqueIds (store.map fun s =>
          if s.id == c.doc.id then formatSongToStorage c.doc c.blob meta else s)
        unfold uniqueIds at h ⊢
        rw [updateIds store c.doc.id (formatSongToStorage c.doc c.blob meta) rfl]
        exact h
  | none =>
    cases hmeta : c.metaData with
    | none =>
      have herr : handleAddSong store c = .error "Invalid metadata" := by
        simp [handleAddSong, hget, hmeta]
      simpa [ingestStep, herr] using h
    | some meta =>
      have hok : handleAddSong store c = .ok
          (store ++ [formatSongToStorage c.doc c.blob meta]) := by
        simp [handleAddSong, hget, hmeta]
      unfold ingestStep
      rw [hok]
      show uniqueIds (store ++ [formatSongToStorage c.doc c.blob meta])
      unfold uniqueIds at h ⊢
      rw [List.map_append, List.nodup_append]
      refine ⟨h, List.nodup_singleton _, ?_⟩
      intro a ha hb
      obtain rfl : a = c.doc.id := by simpa [formatSongToStorage] using hb
      exact getSong_none_not_mem store c.doc.id hget ha

/-- Any sequence of ingestions preserves the primary-key invariant. -/
theorem ingestAll_uniqueIds (store : SongStore) (cs : List Candidate)
    (h : uniqueIds store) : uniqueIds (ingestAll store cs) := by
  induction cs generalizing store with
  | nil => exact h
  | cons c cs ih => exact ih _ (ingestStep_uniqueIds store c h)

/-- C1: last-writer-wins upsert. (1) A candidate whose `lastEditedUtc` is
not strictly greater than the stored record's is a no-op. (2) A strictly
newer candidate replaces the stored record in full with its derived
record, leaving every other id's lookup unchanged. (3) Any sequence of
ingestions preserves the at-most-one-record-per-id invariant. -/
theorem upsert_lastWriterWins :
    (∀ (store : SongStore) (c : Candidate) (dup : Song),
        getSong store c.doc.id = some dup →
        c.doc.lastEditedUtc ≤ dup.lastEditedUtc →
        handleAddSong store c = .ok store) ∧
    (∀ (store : SongStore) (c : Candidate) (dup : Song) (meta : ITags),
        getSong store c.doc.id = some dup →
        dup.lastEditedUtc < c.doc.lastEditedUtc →
        c.metaData = some meta →
        ∃ store', handleAddSong store c = .ok store' ∧
          getSong store' c.doc.id = some (formatSongToStorage c.doc c.blob meta) ∧
          ∀ q, q ≠ c.doc.id → getSong store' q = getSong store q) ∧
    (∀ (store : SongStore) (cs : List Candidate),
        uniqueIds store → uniqueIds (ingestAll store cs)) := by
  refine ⟨?_, ?_, ingestAll_uniqueIds⟩
  · intro store c dup hget hts
    simp [handleAddSong, hget, hts]
  · intro store c dup meta hget hts hmeta
    have hnle : ¬ c.doc.lastEditedUtc ≤ dup.lastEditedUtc := not_le.mpr hts
    refine ⟨store.map fun s =>
        if s.id == c.doc.id then formatSongToStorage c.doc c.blob meta else s,
      ?_, ?_, ?_⟩
    · simp [handleAddSong, hget, hnle, hmeta]
    · exact getSong_update_self store c.doc.id _ rfl (by rw [hget]; rfl)
    · intro q hq
      exact getSong_update_other store c.doc.id _ rfl q hq

/-- Witness for C1: a store holding `songA` (ts 100); `candOld` (ts 50)
is discarded, `candNew` (ts 150) replaces the record in full, and a
sequence of ingestions keeps ids unique. -/
theorem upsert_lastWriterWins_witness :
    handleAddSong [songA] candOld = .ok [songA] ∧
    (∃ store', handleAddSong [songA] candNew = .ok store' ∧
        getSong store' candNew.doc.id =
          some (formatSongToStorage candNew.doc candNew.blob metaFull) ∧
        ∀ q, q ≠ candNew.doc.id → getSong store' q = getSong [songA] q) ∧
    uniqueIds (ingestAll [songA] [candOld, candNew, candC]) :=
  ⟨upsert_lastWriterWins.1 [songA] candOld songA (by decide) (by decide),
   upsert_lastWriterWins.2.1 [songA] candNew songA metaFull (by decide) (by decide) rfl,
   upsert_lastWriterWins.2.2 [songA] [candOld, candNew, candC]
     (by unfold uniqueIds; decide)⟩

end AudioPlayer
